import Mathlib

/-!
# Verification of the wetland session/connection core

Shallow embedding of `src/Scope.ts` and of the `Store` connection manager of
the wetland ORM.  `Scope.ts` is embedded directly from the source.  Its
collaborators `UnitOfWork`, `IdentityMap`, `EntityProxy` and `Store` are not
part of the provided sources (only `Store`'s unit tests are), so those are
modelled from the specification, each such definition carrying a doc comment
saying so.

Conventions of the embedding:
* JavaScript values that matter here (primary keys, truthiness) are `JsVal`.
* Entity instances live on an explicit heap (`List EntityObj`); an instance is
  identified by its heap address, so "identical instance" is address equality.
* Proxies live on a second heap (`List ProxyObj`); a reference handed to the
  application is `Ref.raw a` (plain entity at address `a`) or `Ref.prox p`
  (proxy number `p`).
* The mapping metadata provider (an external collaborator) is abstracted to a
  function `pkOf : String → String` giving the primary-key field name of an
  entity type; entity-hint resolution (`EntityManager.resolveEntityReference`)
  is abstracted to the identity on entity-type names.
* Every query issued against storage is recorded in `ScopeState.queries`, so
  "never issues a query" is provable as that list being unchanged.
-/

/-- JavaScript values, as far as primary keys and truthiness are concerned
(NaN is not modelled; numbers are integers). -/
inductive JsVal where
  | vNull
  | vUndefined
  | vBool (b : Bool)
  | vNum (n : Int)
  | vStr (s : String)
  deriving DecidableEq, Repr

/-- JavaScript truthiness: `null`, `undefined`, `false`, `0` and `""` are
falsy, everything else modelled here is truthy. -/
def JsVal.truthy : JsVal → Bool
  | .vNull => false
  | .vUndefined => false
  | .vBool b => b
  | .vNum n => n ≠ 0
  | .vStr s => s ≠ ""

/-- Set a field in an association list of entity fields (update in place, or
append when absent — JS property assignment). -/
def setField : List (String × JsVal) → String → JsVal → List (String × JsVal)
  | [], f, v => [(f, v)]
  | (g, w) :: rest, f, v =>
      if g = f then (f, v) :: rest else (g, w) :: setField rest f v

/-- An entity instance: its constructor (entity type name) and its populated
fields.  A freshly constructed instance (`new ReferenceClass`) has no
populated fields. -/
structure EntityObj where
  etype : String
  fields : List (String × JsVal)
  deriving DecidableEq, Repr

instance : Inhabited EntityObj := ⟨⟨"", []⟩⟩

/-- Read a field of an entity; an absent field reads as `undefined`. -/
def EntityObj.get (e : EntityObj) (f : String) : JsVal :=
  match e.fields.find? (fun p => p.1 = f) with
  | some p => p.2
  | none => .vUndefined

/-- JS property assignment `e[f] = v`. -/
def EntityObj.set (e : EntityObj) (f : String) (v : JsVal) : EntityObj :=
  { e with fields := setField e.fields f v }

/-- The four Unit of Work states of a tracked entity. -/
inductive UowState where
  | snew
  | sclean
  | sdirty
  | sdeleted
  deriving DecidableEq, Repr

/-- Modelled from the spec: `UnitOfWork.ts` is not among the provided sources.
The Unit of Work tracks entities (by heap address) each in exactly one of the
four states. -/
structure UnitOfWork where
  tracked : List (Nat × UowState)
  deriving DecidableEq, Repr

/-- The tracked state of an entity, or `none` when untracked. -/
def UnitOfWork.stateOf (u : UnitOfWork) (a : Nat) : Option UowState :=
  (u.tracked.find? (fun p => p.1 = a)).map (fun p => p.2)

/-- Replace the state of every entry for address `a`. -/
def setEntries : List (Nat × UowState) → Nat → UowState → List (Nat × UowState)
  | [], _, _ => []
  | (b, sb) :: rest, a, st =>
      if b = a then (a, st) :: setEntries rest a st
      else (b, sb) :: setEntries rest a st

/-- Modelled from the spec: `registerNew(entity)`: clean/absent → new;
entities already `new` stay `new` (idempotent).  The spec does not define the
effect on `dirty`/`deleted` entities; the model leaves those unchanged. -/
def UnitOfWork.registerNew (u : UnitOfWork) (a : Nat) : UnitOfWork :=
  match u.stateOf a with
  | none => ⟨u.tracked ++ [(a, .snew)]⟩
  | some .sclean => ⟨setEntries u.tracked a .snew⟩
  | some _ => u

/-- Modelled from the spec: `registerClean(entity)`: absent → clean; marks the
entity as known-persisted with no pending write.  Already-tracked entities are
left unchanged (the spec defines only the absent case). -/
def UnitOfWork.registerClean (u : UnitOfWork) (a : Nat) : UnitOfWork :=
  match u.stateOf a with
  | none => ⟨u.tracked ++ [(a, .sclean)]⟩
  | some _ => u

/-- Modelled from the spec: `registerDeleted(entity)`: any state → deleted; a
`new` entity that is deleted before commit is simply dropped from tracking. -/
def UnitOfWork.registerDeleted (u : UnitOfWork) (a : Nat) : UnitOfWork :=
  match u.stateOf a with
  | some .snew => ⟨(u.tracked.filter (fun p => ¬ p.1 = a))⟩
  | none => ⟨u.tracked ++ [(a, .sdeleted)]⟩
  | some _ => ⟨setEntries u.tracked a .sdeleted⟩

/-- Modelled from the spec: clearing one entity removes it from the Unit of
Work's tracked entries (`detach ... clears the entity from the Unit of Work's
tracked entries`). -/
def UnitOfWork.clearEntity (u : UnitOfWork) (a : Nat) : UnitOfWork :=
  ⟨u.tracked.filter (fun p => ¬ p.1 = a)⟩

/-- A reference held by the application: either a raw entity (heap address) or
a proxy (proxy-heap index). -/
inductive Ref where
  | raw (a : Nat)
  | prox (p : Nat)
  deriving DecidableEq, Repr

/-- Modelled from the spec: the Identity Map is a per-session registry of live
entity instances keyed by (entity type, primary-key value). -/
structure IdentityMap where
  entries : List ((String × JsVal) × Ref)
  deriving DecidableEq, Repr

/-- Modelled from the spec: `fetch(entityType, primaryKeyValue)` returns the
registered instance for that key or a not-found sentinel. -/
def IdentityMap.fetch (m : IdentityMap) (t : String) (pk : JsVal) : Option Ref :=
  (m.entries.find? (fun e => e.1 = (t, pk))).map (fun e => e.2)

/-- Modelled from the spec: `register(entityType, instance)` associates the key
derived from the instance's current primary key with the instance
(last write shadows, the map is searched front to back and new entries are put
in front). -/
def IdentityMap.register (m : IdentityMap) (t : String) (pk : JsVal) (inst : Ref) :
    IdentityMap :=
  ⟨((t, pk), inst) :: m.entries⟩

/-- Modelled from the spec: proxy state wraps an entity; fields are `target`
(the raw entity), `active` (whether mutation interception is enabled) and the
recorded dirty indicator. -/
structure ProxyObj where
  target : Nat
  active : Bool
  dirty : Bool
  deriving DecidableEq, Repr

instance : Inhabited ProxyObj := ⟨⟨0, false, false⟩⟩

/-- `deactivateProxying` on proxy number `p`: stops interception, does not
erase recorded dirty state. -/
def deactivateAt : List ProxyObj → Nat → List ProxyObj
  | [], _ => []
  | q :: rest, 0 => { q with active := false } :: rest
  | q :: rest, n + 1 => q :: deactivateAt rest n

/-- A single-row lookup issued against storage: entity type, primary-key field
name and the primary-key value of the `where` clause. -/
structure Query where
  etype : String
  pkName : String
  pkVal : JsVal
  deriving DecidableEq, Repr

/-- The state of one `Scope`: the entity heap, the proxy heap, the Identity
Map, the Unit of Work and the log of queries issued against storage. -/
structure ScopeState where
  heap : List EntityObj
  proxies : List ProxyObj
  idMap : IdentityMap
  uow : UnitOfWork
  queries : List Query
  deriving DecidableEq, Repr

namespace Scope

/-- `Scope.attach` (`Scope.ts` line 230): wrap an entity in a mutation-observing
proxy via `EntityProxy.patchEntity(entity, this, active)`.  `EntityProxy.ts` is
not among the provided sources; modelled from the spec: the proxy records the
raw target and the `active` flag, with no mutation recorded yet. -/
def attach (s : ScopeState) (a : Nat) (active : Bool := false) : Ref × ScopeState :=
  (Ref.prox s.proxies.length,
    { s with proxies := s.proxies ++ [⟨a, active, false⟩] })

/-- `Scope.getReference` (`Scope.ts` lines 90–113): return the Identity Map
entry when present; otherwise construct a bare instance, populate only its
primary key, register it clean in the Unit of Work, and when `proxy` is set
wrap it and register the proxy in the Identity Map. -/
def getReference (pkOf : String → String) (s : ScopeState) (etype : String)
    (primaryKeyValue : JsVal) (proxy : Bool := true) : Ref × ScopeState :=
  match s.idMap.fetch etype primaryKeyValue with
  | some fromMap => (fromMap, s)
  | none =>
    let refAddr := s.heap.length
    let primaryKey := pkOf etype
    let reference := (⟨etype, []⟩ : EntityObj).set primaryKey primaryKeyValue
    let s1 : ScopeState :=
      { s with
        heap := s.heap ++ [reference],
        uow := s.uow.registerClean refAddr }
    if proxy then
      let (proxied, s2) := attach s1 refAddr
      (proxied,
        { s2 with
          idMap := s2.idMap.register etype (reference.get primaryKey) proxied })
    else
      (Ref.raw refAddr, s1)

/-- `Scope.persist` (`Scope.ts` lines 256–260): mark the provided entities as
new in the Unit of Work. -/
def persist (s : ScopeState) (entities : List Nat) : ScopeState :=
  entities.foldl (fun acc e => { acc with uow := acc.uow.registerNew e }) s

/-- `Scope.remove` (`Scope.ts` lines 269–273): mark an entity as deleted in the
Unit of Work. -/
def remove (s : ScopeState) (e : Nat) : ScopeState :=
  { s with uow := s.uow.registerDeleted e }

/-- `Scope.detach` (`Scope.ts` lines 241–247): deactivate proxying, clear the
entity from the Unit of Work, return the proxy's raw target. -/
def detach (s : ScopeState) (p : Nat) : Ref × ScopeState :=
  let tgt := (s.proxies.getD p default).target
  (Ref.raw tgt,
    { s with
      proxies := deactivateAt s.proxies p,
      uow := s.uow.clearEntity tgt })

/-- Modelled from the spec: `UnitOfWork.ts` is not among the provided sources.
`UnitOfWork.clear()` with no arguments resets the Unit of Work's tracking and
— the Scope being cleared — the Identity Map entries are destroyed
(spec §3 lifecycles, §4.1 `clear()`). -/
def UnitOfWork.clearAll (s : ScopeState) : ScopeState :=
  { s with uow := ⟨[]⟩, idMap := ⟨[]⟩ }

/-- `Scope.clear` (`Scope.ts` lines 297–301): delegates to
`this.unitOfWork.clear()`. -/
def clear (s : ScopeState) : ScopeState :=
  UnitOfWork.clearAll s

end Scope

/-- One entity's refresh (`Scope.ts` lines 141–158): resolve the primary-key
field name, read the entity's primary key; when it is falsy
(`if (!primaryKey)`) push a rejected promise, otherwise push the single-row
lookup by primary key (its hydration step is external and not modelled). -/
def refreshOne (pkOf : String → String) (heap : List EntityObj) (a : Nat) :
    Except String Query :=
  let obj := heap.getD a default
  let primaryKeyName := pkOf obj.etype
  let primaryKey := obj.get primaryKeyName
  if primaryKey.truthy = false then
    .error "Cannot refresh entity without a PK value."
  else
    .ok ⟨obj.etype, primaryKeyName, primaryKey⟩

/-- `Promise.all`: resolves when all promises resolve, rejects (here: with the
first rejection in list order) when any one rejects. -/
def promiseAll {α : Type} : List (Except String α) → Except String Unit
  | [] => .ok ()
  | .error e :: _ => .error e
  | .ok _ :: rest => promiseAll rest

/-- The outcome of a `refresh` call: the per-entity promises and the overall
`Promise.all` result. -/
structure RefreshResult where
  perEntity : List (Except String Query)
  overall : Except String Unit
  deriving Repr

/-- `Scope.refresh` (`Scope.ts` lines 133–161): with no entities resolve
immediately; otherwise build one refresh per entity and return `Promise.all`.
Every lookup actually issued is appended to the query log. -/
def Scope.refresh (pkOf : String → String) (s : ScopeState) (entities : List Nat) :
    RefreshResult × ScopeState :=
  if entities.isEmpty then (⟨[], .ok ()⟩, s)
  else
    let refreshes := entities.map (refreshOne pkOf s.heap)
    (⟨refreshes, promiseAll refreshes⟩,
      { s with queries := s.queries ++ refreshes.filterMap (fun r => r.toOption) })

/-- Modelled from the spec: `Store.ts` is not among the provided sources (only
its unit tests are).  A Store holds two role-partitioned connection lists and
one round-robin counter per role; connections are identified by numeric ids so
that "the very same connection object" is id equality. -/
structure Store where
  name : String
  master : List Nat
  slave : List Nat
  ptrMaster : Nat
  ptrSlave : Nat
  deriving DecidableEq, Repr

/-- Role constant `Store.ROLE_MASTER`. -/
def Store.ROLE_MASTER : String := "master"

/-- Role constant `Store.ROLE_SLAVE`. -/
def Store.ROLE_SLAVE : String := "slave"

/-- Modelled from the spec: `registerConnection(descriptor, role=null)`:
role ∈ {master, slave, null}; fails with a configuration error for any other
value; `master`/`slave` appends to exactly that list; `null` registers the
same connection into both role lists. -/
def Store.registerConnection (st : Store) (c : Nat) (role : Option String := none) :
    Except String Store :=
  match role with
  | none => .ok { st with master := st.master ++ [c], slave := st.slave ++ [c] }
  | some r =>
    if r = Store.ROLE_MASTER then
      .ok { st with master := st.master ++ [c] }
    else if r = Store.ROLE_SLAVE then
      .ok { st with slave := st.slave ++ [c] }
    else
      .error "Trying to register a connection with an invalid role."

/-- The connection list serving a role. -/
def Store.roleList (st : Store) (role : String) : List Nat :=
  if role = Store.ROLE_MASTER then st.master else st.slave

/-- The round-robin counter of a role. -/
def Store.rolePtr (st : Store) (role : String) : Nat :=
  if role = Store.ROLE_MASTER then st.ptrMaster else st.ptrSlave

/-- Modelled from the spec: `getConnection(role)` returns one connection for
the requested role by round-robin among same-role entries; the per-role
counter increments modulo the list length, wrapping to zero; an empty slave
list falls back to the master connections (reads may go to the write
connection, never the reverse); with no candidate at all it fails with a
"no connection available" error. -/
def Store.getConnection (st : Store) (role : String) : Except String (Nat × Store) :=
  if role = Store.ROLE_MASTER then
    if st.master.length = 0 then
      .error "No connection available for role master."
    else
      .ok (st.master.getD (st.ptrMaster % st.master.length) 0,
        { st with ptrMaster := (st.ptrMaster + 1) % st.master.length })
  else if role = Store.ROLE_SLAVE then
    if st.slave.length = 0 then
      if st.master.length = 0 then
        .error "No connection available for role slave."
      else
        .ok (st.master.getD (st.ptrMaster % st.master.length) 0,
          { st with ptrMaster := (st.ptrMaster + 1) % st.master.length })
    else
      .ok (st.slave.getD (st.ptrSlave % st.slave.length) 0,
        { st with ptrSlave := (st.ptrSlave + 1) % st.slave.length })
  else
    .error "Invalid role provided."

/-- Iterate `getConnection`: the results of `n` successive calls and the final
Store state. -/
def Store.runConns (role : String) : Store → Nat → List (Except String Nat) × Store
  | st, 0 => ([], st)
  | st, n + 1 =>
    match st.getConnection role with
    | .ok (c, st1) =>
      let r := Store.runConns role st1 n
      (.ok c :: r.1, r.2)
    | .error e =>
      let r := Store.runConns role st n
      (.error e :: r.1, r.2)

instance : Inhabited Query := ⟨⟨"", "", .vUndefined⟩⟩

/-! ## Supporting lemmas about the Unit of Work -/

lemma find?_setEntries_self (l : List (Nat × UowState)) (a : Nat) (st : UowState) :
    (setEntries l a st).find? (fun p => p.1 = a)
      = (l.find? (fun p => p.1 = a)).map (fun _ => (a, st)) := by
  induction l with
  | nil => rfl
  | cons q rest ih =>
    obtain ⟨b, sb⟩ := q
    by_cases hb : b = a
    · subst hb
      simp [setEntries]
    · simp [setEntries, hb, ih]

lemma stateOf_append (u : UnitOfWork) (a : Nat) (st : UowState)
    (h : u.stateOf a = none) :
    (UnitOfWork.mk (u.tracked ++ [(a, st)])).stateOf a = some st := by
  have hf : u.tracked.find? (fun p => decide (p.1 = a)) = none := by
    unfold UnitOfWork.stateOf at h
    exact Option.map_eq_none'.mp h
  unfold UnitOfWork.stateOf
  rw [List.find?_append, hf, Option.none_or]
  simp

lemma stateOf_setEntries (u : UnitOfWork) (a : Nat) (st : UowState) (p : UowState)
    (h : u.stateOf a = some p) :
    (UnitOfWork.mk (setEntries u.tracked a st)).stateOf a = some st := by
  obtain ⟨q, hq⟩ : ∃ q, u.tracked.find? (fun p => decide (p.1 = a)) = some q := by
    unfold UnitOfWork.stateOf at h
    rcases hq : u.tracked.find? (fun p => decide (p.1 = a)) with _ | q
    · rw [hq] at h
      simp at h
    · exact ⟨q, hq⟩
  unfold UnitOfWork.stateOf
  rw [find?_setEntries_self, hq]
  rfl

lemma stateOf_registerNew_snew (u : UnitOfWork) (a : Nat)
    (h : u.stateOf a = none ∨ u.stateOf a = some .sclean ∨ u.stateOf a = some .snew) :
    (u.registerNew a).stateOf a = some .snew := by
  unfold UnitOfWork.registerNew
  rcases h with h | h | h <;> rw [h]
  · exact stateOf_append u a .snew h
  · exact stateOf_setEntries u a .snew .sclean h
  · exact h

lemma registerNew_of_snew (u : UnitOfWork) (a : Nat)
    (h : u.stateOf a = some .snew) : u.registerNew a = u := by
  unfold UnitOfWork.registerNew
  rw [h]

lemma registerNew_eq_self (u : UnitOfWork) (a : Nat) (st : UowState)
    (h : u.stateOf a = some st) (hst : st ≠ .sclean) : u.registerNew a = u := by
  unfold UnitOfWork.registerNew
  rw [h]
  cases st with
  | sclean => exact absurd rfl hst
  | snew => rfl
  | sdirty => rfl
  | sdeleted => rfl

lemma registerNew_idem (u : UnitOfWork) (a : Nat) :
    (u.registerNew a).registerNew a = u.registerNew a := by
  rcases h : u.stateOf a with _ | st
  · exact registerNew_of_snew _ a (stateOf_registerNew_snew u a (Or.inl h))
  · cases st with
    | sclean =>
      exact registerNew_of_snew _ a (stateOf_registerNew_snew u a (Or.inr (Or.inl h)))
    | snew =>
      have hu := registerNew_of_snew u a h
      rw [hu]
      exact hu
    | sdirty =>
      have hu := registerNew_eq_self u a .sdirty h (by simp)
      rw [hu]
      exact hu
    | sdeleted =>
      have hu := registerNew_eq_self u a .sdeleted h (by simp)
      rw [hu]
      exact hu

/-! ## C4, C6, C7 -/

/-- C4: `registerConnection` with any role other than master, slave or no role
fails with a configuration error; with role master (resp. slave) it appends the
connection to exactly the master (resp. slave) list, leaving the other list
unchanged; with no role it appends the very same connection to both lists. -/
theorem store_registerConnection_roles (st : Store) (c : Nat) (r : String)
    (h1 : r ≠ Store.ROLE_MASTER) (h2 : r ≠ Store.ROLE_SLAVE) :
    st.registerConnection c (some r)
      = .error "Trying to register a connection with an invalid role."
    ∧ st.registerConnection c (some Store.ROLE_MASTER)
      = .ok { st with master := st.master ++ [c] }
    ∧ st.registerConnection c (some Store.ROLE_SLAVE)
      = .ok { st with slave := st.slave ++ [c] }
    ∧ st.registerConnection c none
      = .ok { st with master := st.master ++ [c], slave := st.slave ++ [c] } := by
  have h1' : ¬ (r = "master") := by simpa [Store.ROLE_MASTER] using h1
  have h2' : ¬ (r = "slave") := by simpa [Store.ROLE_SLAVE] using h2
  refine ⟨?_, ?_, ?_, ?_⟩
  · simp only [Store.registerConnection, Store.ROLE_MASTER, Store.ROLE_SLAVE]
    rw [if_neg h1', if_neg h2']
  · simp [Store.registerConnection, Store.ROLE_MASTER]
  · simp [Store.registerConnection, Store.ROLE_SLAVE, Store.ROLE_MASTER]
  · rfl

theorem store_registerConnection_roles_witness :
    (Store.mk "w" [] [] 0 0).registerConnection 7 (some "bad")
      = .error "Trying to register a connection with an invalid role."
    ∧ (Store.mk "w" [] [] 0 0).registerConnection 7 (some Store.ROLE_MASTER)
      = .ok { Store.mk "w" [] [] 0 0 with master := ([] : List Nat) ++ [7] }
    ∧ (Store.mk "w" [] [] 0 0).registerConnection 7 (some Store.ROLE_SLAVE)
      = .ok { Store.mk "w" [] [] 0 0 with slave := ([] : List Nat) ++ [7] }
    ∧ (Store.mk "w" [] [] 0 0).registerConnection 7 none
      = .ok { Store.mk "w" [] [] 0 0 with
                master := ([] : List Nat) ++ [7], slave := ([] : List Nat) ++ [7] } :=
  store_registerConnection_roles ⟨"w", [], [], 0, 0⟩ 7 "bad" (by decide) (by decide)

/-- C6: `persist` is idempotent — persisting the same entity twice leaves the
Unit of Work exactly as persisting it once does, and an entity persisted from
an untracked, clean or already-new state is tracked as the single `new`
entry. -/
theorem scope_persist_idempotent (s : ScopeState) (e : Nat) :
    Scope.persist (Scope.persist s [e]) [e] = Scope.persist s [e]
    ∧ ((s.uow.stateOf e = none ∨ s.uow.stateOf e = some .sclean
          ∨ s.uow.stateOf e = some .snew) →
        (Scope.persist s [e]).uow.stateOf e = some .snew) := by
  constructor
  · show ({ s with uow := (s.uow.registerNew e).registerNew e } : ScopeState)
        = { s with uow := s.uow.registerNew e }
    rw [registerNew_idem]
  · intro h
    exact stateOf_registerNew_snew s.uow e h

theorem scope_persist_idempotent_witness :
    Scope.persist (Scope.persist (ScopeState.mk [] [] ⟨[]⟩ ⟨[]⟩ []) [0]) [0]
      = Scope.persist (ScopeState.mk [] [] ⟨[]⟩ ⟨[]⟩ []) [0]
    ∧ (Scope.persist (ScopeState.mk [] [] ⟨[]⟩ ⟨[]⟩ []) [0]).uow.stateOf 0
      = some .snew :=
  ⟨(scope_persist_idempotent (ScopeState.mk [] [] ⟨[]⟩ ⟨[]⟩ []) 0).1,
    (scope_persist_idempotent (ScopeState.mk [] [] ⟨[]⟩ ⟨[]⟩ []) 0).2 (Or.inl rfl)⟩

/-- C7: after `Scope.clear()` the Unit of Work tracks nothing (every entity is
untracked) and the Identity Map holds no (type, primary key) entry. -/
theorem scope_clear_empties (s : ScopeState) :
    (∀ a, (Scope.clear s).uow.stateOf a = none)
    ∧ (∀ t pk, (Scope.clear s).idMap.fetch t pk = none) :=
  ⟨fun _ => rfl, fun _ _ => rfl⟩

/-! ## Supporting lemmas about `getReference` -/

lemma find?_setField_self (l : List (String × JsVal)) (f : String) (v : JsVal) :
    (setField l f v).find? (fun p => p.1 = f) = some (f, v) := by
  induction l with
  | nil => simp [setField]
  | cons q rest ih =>
    obtain ⟨g, w⟩ := q
    by_cases hg : g = f
    · subst hg
      simp [setField]
    · simp [setField, hg, ih]

lemma get_set_self (e : EntityObj) (f : String) (v : JsVal) :
    (e.set f v).get f = v := by
  simp [EntityObj.get, EntityObj.set, find?_setField_self]

lemma fetch_register_self (m : IdentityMap) (t : String) (pk : JsVal) (r : Ref) :
    (m.register t pk r).fetch t pk = some r := by
  simp [IdentityMap.register, IdentityMap.fetch]

lemma getReference_hit (pkOf : String → String) (s : ScopeState) (t : String)
    (pk : JsVal) (p : Bool) (r : Ref) (h : s.idMap.fetch t pk = some r) :
    Scope.getReference pkOf s t pk p = (r, s) := by
  simp [Scope.getReference, h]

lemma getReference_miss_proxied (pkOf : String → String) (s : ScopeState)
    (t : String) (pk : JsVal) (h : s.idMap.fetch t pk = none) :
    Scope.getReference pkOf s t pk true =
      (Ref.prox s.proxies.length,
        { s with
          heap := s.heap ++ [⟨t, [(pkOf t, pk)]⟩],
          proxies := s.proxies ++ [⟨s.heap.length, false, false⟩],
          uow := s.uow.registerClean s.heap.length,
          idMap := s.idMap.register t pk (Ref.prox s.proxies.length) }) := by
  simp only [Scope.getReference, h, Scope.attach, get_set_self]
  rfl

lemma getReference_miss_raw (pkOf : String → String) (s : ScopeState)
    (t : String) (pk : JsVal) (h : s.idMap.fetch t pk = none) :
    Scope.getReference pkOf s t pk false =
      (Ref.raw s.heap.length,
        { s with
          heap := s.heap ++ [⟨t, [(pkOf t, pk)]⟩],
          uow := s.uow.registerClean s.heap.length }) := by
  simp only [Scope.getReference, h]
  rfl

/-! ## C1 -/

/-- C1: two `getReference` calls in the same Scope for the same entity type and
primary-key value return the identical instance: after a first call (with the
default `proxy = true`), a second call — whatever its `proxy` argument —
returns exactly the instance the first call returned, leaving the Scope
untouched (it never constructs a new one). -/
theorem getReference_single_instance (pkOf : String → String) (s : ScopeState)
    (t : String) (pk : JsVal) (p2 : Bool) :
    (Scope.getReference pkOf (Scope.getReference pkOf s t pk true).2 t pk p2).1
      = (Scope.getReference pkOf s t pk true).1
    ∧ (Scope.getReference pkOf (Scope.getReference pkOf s t pk true).2 t pk p2).2
      = (Scope.getReference pkOf s t pk true).2 := by
  rcases hm : s.idMap.fetch t pk with _ | fm
  · rw [getReference_miss_proxied pkOf s t pk hm]
    rw [getReference_hit pkOf _ t pk p2 _ (fetch_register_self _ t pk _)]
    exact ⟨rfl, rfl⟩
  · rw [getReference_hit pkOf s t pk true fm hm]
    rw [getReference_hit pkOf s t pk p2 fm hm]
    exact ⟨rfl, rfl⟩

/-! ## C2 -/

/-- C2: for a (type, primary key) not in the Identity Map, `getReference`
constructs a fresh bare instance whose only populated field is the primary
key, registers it as clean in the Unit of Work, when `proxy` is true wraps it
in a proxy that is registered in the Identity Map — and in every case issues
no query. -/
theorem getReference_constructs (pkOf : String → String) (s : ScopeState)
    (t : String) (pk : JsVal) (proxy : Bool)
    (hmap : s.idMap.fetch t pk = none)
    (hwf : ∀ q ∈ s.uow.tracked, q.1 < s.heap.length) :
    (Scope.getReference pkOf s t pk proxy).2.heap
      = s.heap ++ [⟨t, [(pkOf t, pk)]⟩]
    ∧ (Scope.getReference pkOf s t pk proxy).2.uow.stateOf s.heap.length
      = some .sclean
    ∧ (proxy = true →
        (Scope.getReference pkOf s t pk proxy).1 = Ref.prox s.proxies.length
        ∧ (Scope.getReference pkOf s t pk proxy).2.proxies
          = s.proxies ++ [⟨s.heap.length, false, false⟩]
        ∧ (Scope.getReference pkOf s t pk proxy).2.idMap.fetch t pk
          = some (Scope.getReference pkOf s t pk proxy).1)
    ∧ (Scope.getReference pkOf s t pk proxy).2.queries = s.queries := by
  have hnone : s.uow.stateOf s.heap.length = none := by
    unfold UnitOfWork.stateOf
    rw [List.find?_eq_none.mpr, Option.map_none']
    intro x hx
    have := hwf x hx
    simp only [decide_eq_true_eq]
    omega
  have hclean :
      (s.uow.registerClean s.heap.length).stateOf s.heap.length = some .sclean := by
    unfold UnitOfWork.registerClean
    rw [hnone]
    exact stateOf_append s.uow s.heap.length .sclean hnone
  cases proxy
  · rw [getReference_miss_raw pkOf s t pk hmap]
    refine ⟨rfl, hclean, ?_, rfl⟩
    intro h
    exact absurd h (by simp)
  · rw [getReference_miss_proxied pkOf s t pk hmap]
    exact ⟨rfl, hclean, fun _ => ⟨rfl, rfl, fetch_register_self _ t pk _⟩, rfl⟩

theorem getReference_constructs_witness :
    (Scope.getReference (fun _ => "id") (ScopeState.mk [] [] ⟨[]⟩ ⟨[]⟩ [])
        "user" (.vNum 1) true).2.heap
      = [] ++ [⟨"user", [("id", .vNum 1)]⟩]
    ∧ (Scope.getReference (fun _ => "id") (ScopeState.mk [] [] ⟨[]⟩ ⟨[]⟩ [])
        "user" (.vNum 1) true).2.uow.stateOf (List.length ([] : List EntityObj))
      = some .sclean
    ∧ (true = true →
        (Scope.getReference (fun _ => "id") (ScopeState.mk [] [] ⟨[]⟩ ⟨[]⟩ [])
            "user" (.vNum 1) true).1
          = Ref.prox (List.length ([] : List ProxyObj))
        ∧ (Scope.getReference (fun _ => "id") (ScopeState.mk [] [] ⟨[]⟩ ⟨[]⟩ [])
            "user" (.vNum 1) true).2.proxies
          = [] ++ [⟨List.length ([] : List EntityObj), false, false⟩]
        ∧ (Scope.getReference (fun _ => "id") (ScopeState.mk [] [] ⟨[]⟩ ⟨[]⟩ [])
            "user" (.vNum 1) true).2.idMap.fetch "user" (.vNum 1)
          = some (Scope.getReference (fun _ => "id")
              (ScopeState.mk [] [] ⟨[]⟩ ⟨[]⟩ []) "user" (.vNum 1) true).1)
    ∧ (Scope.getReference (fun _ => "id") (ScopeState.mk [] [] ⟨[]⟩ ⟨[]⟩ [])
        "user" (.vNum 1) true).2.queries = [] :=
  getReference_constructs (fun _ => "id") (ScopeState.mk [] [] ⟨[]⟩ ⟨[]⟩ [])
    "user" (.vNum 1) true rfl (by simp)

/-! ## C9 -/

/-- C9: with `proxy = false` on a key not in the Identity Map, the constructed
reference is returned without being registered (the Identity Map is
unchanged), so a subsequent `getReference` for the same (type, primary key)
constructs a second, distinct instance instead of returning the first. -/
theorem getReference_unproxied_not_registered (pkOf : String → String)
    (s : ScopeState) (t : String) (pk : JsVal) (p2 : Bool)
    (hmap : s.idMap.fetch t pk = none) :
    (Scope.getReference pkOf s t pk false).2.idMap = s.idMap
    ∧ (Scope.getReference pkOf s t pk false).1 = Ref.raw s.heap.length
    ∧ (Scope.getReference pkOf (Scope.getReference pkOf s t pk false).2 t pk p2).2.heap
      = (Scope.getReference pkOf s t pk false).2.heap ++ [⟨t, [(pkOf t, pk)]⟩]
    ∧ (Scope.getReference pkOf (Scope.getReference pkOf s t pk false).2 t pk p2).1
      ≠ (Scope.getReference pkOf s t pk false).1 := by
  rw [getReference_miss_raw pkOf s t pk hmap]
  dsimp only
  cases p2
  · rw [getReference_miss_raw pkOf
      { s with
        heap := s.heap ++ [⟨t, [(pkOf t, pk)]⟩],
        uow := s.uow.registerClean s.heap.length } t pk hmap]
    refine ⟨rfl, rfl, rfl, ?_⟩
    intro hcon
    simp only [Ref.raw.injEq, List.length_append, List.length_cons,
      List.length_nil] at hcon
    omega
  · rw [getReference_miss_proxied pkOf
      { s with
        heap := s.heap ++ [⟨t, [(pkOf t, pk)]⟩],
        uow := s.uow.registerClean s.heap.length } t pk hmap]
    exact ⟨rfl, rfl, rfl, fun hcon => Ref.noConfusion hcon⟩

theorem getReference_unproxied_not_registered_witness :
    (Scope.getReference (fun _ => "id") (ScopeState.mk [] [] ⟨[]⟩ ⟨[]⟩ [])
        "user" (.vNum 1) false).2.idMap = (⟨[]⟩ : IdentityMap)
    ∧ (Scope.getReference (fun _ => "id") (ScopeState.mk [] [] ⟨[]⟩ ⟨[]⟩ [])
        "user" (.vNum 1) false).1 = Ref.raw (List.length ([] : List EntityObj))
    ∧ (Scope.getReference (fun _ => "id")
        (Scope.getReference (fun _ => "id") (ScopeState.mk [] [] ⟨[]⟩ ⟨[]⟩ [])
          "user" (.vNum 1) false).2 "user" (.vNum 1) false).2.heap
      = (Scope.getReference (fun _ => "id") (ScopeState.mk [] [] ⟨[]⟩ ⟨[]⟩ [])
          "user" (.vNum 1) false).2.heap ++ [⟨"user", [("id", .vNum 1)]⟩]
    ∧ (Scope.getReference (fun _ => "id")
        (Scope.getReference (fun _ => "id") (ScopeState.mk [] [] ⟨[]⟩ ⟨[]⟩ [])
          "user" (.vNum 1) false).2 "user" (.vNum 1) false).1
      ≠ (Scope.getReference (fun _ => "id") (ScopeState.mk [] [] ⟨[]⟩ ⟨[]⟩ [])
          "user" (.vNum 1) false).1 :=
  getReference_unproxied_not_registered (fun _ => "id")
    (ScopeState.mk [] [] ⟨[]⟩ ⟨[]⟩ []) "user" (.vNum 1) false rfl

/-! ## C8 -/

lemma deactivateAt_getD (l : List ProxyObj) (p : Nat) (hp : p < l.length) :
    (deactivateAt l p).getD p default = { l.getD p default with active := false } := by
  induction l generalizing p with
  | nil => simp at hp
  | cons q rest ih =>
    cases p with
    | zero => simp [deactivateAt]
    | succ n =>
      simp only [deactivateAt, List.getD_cons_succ]
      exact ih n (by simpa using hp)

lemma clearEntity_stateOf (u : UnitOfWork) (a : Nat) :
    (u.clearEntity a).stateOf a = none := by
  unfold UnitOfWork.clearEntity UnitOfWork.stateOf
  rw [List.find?_eq_none.mpr, Option.map_none']
  intro x hx
  simp only [List.mem_filter] at hx
  simpa using hx.2

/-- C8: `detach` on a proxied entity deactivates mutation interception (the
proxy keeps its target and recorded dirty state, only `active` drops), removes
the underlying entity from the Unit of Work's tracked entries, and returns the
very entity object the proxy wrapped — the raw target address, the heap being
left untouched (no copy). -/
theorem scope_detach_spec (s : ScopeState) (p : Nat) (hp : p < s.proxies.length) :
    (Scope.detach s p).1 = Ref.raw (s.proxies.getD p default).target
    ∧ (Scope.detach s p).2.proxies.getD p default
      = { s.proxies.getD p default with active := false }
    ∧ (Scope.detach s p).2.uow.stateOf (s.proxies.getD p default).target = none
    ∧ (Scope.detach s p).2.heap = s.heap := by
  refine ⟨rfl, ?_, ?_, rfl⟩
  · exact deactivateAt_getD s.proxies p hp
  · exact clearEntity_stateOf s.uow (s.proxies.getD p default).target

theorem scope_detach_spec_witness :
    (Scope.detach
        (ScopeState.mk [⟨"user", [("id", .vNum 1)]⟩] [⟨0, true, true⟩] ⟨[]⟩
          ⟨[(0, .sclean)]⟩ []) 0).1
      = Ref.raw ((ScopeState.mk [⟨"user", [("id", .vNum 1)]⟩] [⟨0, true, true⟩] ⟨[]⟩
          ⟨[(0, .sclean)]⟩ []).proxies.getD 0 default).target
    ∧ (Scope.detach
        (ScopeState.mk [⟨"user", [("id", .vNum 1)]⟩] [⟨0, true, true⟩] ⟨[]⟩
          ⟨[(0, .sclean)]⟩ []) 0).2.proxies.getD 0 default
      = { (ScopeState.mk [⟨"user", [("id", .vNum 1)]⟩] [⟨0, true, true⟩] ⟨[]⟩
          ⟨[(0, .sclean)]⟩ []).proxies.getD 0 default with active := false }
    ∧ (Scope.detach
        (ScopeState.mk [⟨"user", [("id", .vNum 1)]⟩] [⟨0, true, true⟩] ⟨[]⟩
          ⟨[(0, .sclean)]⟩ []) 0).2.uow.stateOf
        ((ScopeState.mk [⟨"user", [("id", .vNum 1)]⟩] [⟨0, true, true⟩] ⟨[]⟩
          ⟨[(0, .sclean)]⟩ []).proxies.getD 0 default).target = none
    ∧ (Scope.detach
        (ScopeState.mk [⟨"user", [("id", .vNum 1)]⟩] [⟨0, true, true⟩] ⟨[]⟩
          ⟨[(0, .sclean)]⟩ []) 0).2.heap
      = [⟨"user", [("id", .vNum 1)]⟩] :=
  scope_detach_spec
    (ScopeState.mk [⟨"user", [("id", .vNum 1)]⟩] [⟨0, true, true⟩] ⟨[]⟩
      ⟨[(0, .sclean)]⟩ []) 0 (by simp)

/-! ## Supporting lemmas about `refresh` -/

lemma getD_mem_of_lt {α : Type} [Inhabited α] (l : List α) (n : Nat) (d : α)
    (h : n < l.length) : l.getD n d ∈ l := by
  rw [List.getD_eq_getElem l d h]
  exact List.getElem_mem h

lemma refreshOne_error_of_falsy (pkOf : String → String) (heap : List EntityObj)
    (a : Nat)
    (h : ((heap.getD a default).get (pkOf (heap.getD a default).etype)).truthy
      = false) :
    refreshOne pkOf heap a = .error "Cannot refresh entity without a PK value." := by
  simp only [refreshOne]
  rw [h, if_pos rfl]

lemma refreshOne_ok_of_truthy (pkOf : String → String) (heap : List EntityObj)
    (a : Nat)
    (h : ((heap.getD a default).get (pkOf (heap.getD a default).etype)).truthy
      = true) :
    refreshOne pkOf heap a
      = .ok ⟨(heap.getD a default).etype, pkOf (heap.getD a default).etype,
          (heap.getD a default).get (pkOf (heap.getD a default).etype)⟩ := by
  simp only [refreshOne]
  rw [h, if_neg (by simp)]

lemma refreshOne_ok_truthy (pkOf : String → String) (heap : List EntityObj)
    (a : Nat) (q : Query) (h : refreshOne pkOf heap a = .ok q) :
    q.pkVal.truthy = true := by
  by_cases hc : ((heap.getD a default).get (pkOf (heap.getD a default).etype)).truthy
      = false
  · rw [refreshOne_error_of_falsy pkOf heap a hc] at h
    exact absurd h (by simp)
  · rw [Bool.not_eq_false] at hc
    rw [refreshOne_ok_of_truthy pkOf heap a hc] at h
    obtain rfl : (⟨(heap.getD a default).etype, pkOf (heap.getD a default).etype,
        (heap.getD a default).get (pkOf (heap.getD a default).etype)⟩ : Query) = q := by
      simpa using h
    exact hc

lemma promiseAll_error_of_mem {α : Type} {l : List (Except String α)} {m : String}
    (h : Except.error m ∈ l) : ∃ msg, promiseAll l = Except.error msg := by
  induction l with
  | nil => simp at h
  | cons x rest ih =>
    cases x with
    | error e => exact ⟨e, rfl⟩
    | ok v =>
      rcases List.mem_cons.mp h with h1 | h1
      · exact absurd h1 (by simp)
      · simpa [promiseAll] using ih h1

lemma refresh_nonempty (pkOf : String → String) (s : ScopeState) (ents : List Nat)
    (h : ents ≠ []) :
    Scope.refresh pkOf s ents
      = (⟨ents.map (refreshOne pkOf s.heap),
          promiseAll (ents.map (refreshOne pkOf s.heap))⟩,
        { s with queries := s.queries
            ++ (ents.map (refreshOne pkOf s.heap)).filterMap Except.toOption }) := by
  have : ents.isEmpty = false := by
    cases ents with
    | nil => exact absurd rfl h
    | cons a l => exact List.isEmpty_cons
  simp [Scope.refresh, this]

lemma refresh_perEntity_getD (pkOf : String → String) (s : ScopeState)
    (ents : List Nat) (i : Nat) (hi : i < ents.length) :
    (Scope.refresh pkOf s ents).1.perEntity.getD i (.ok default)
      = refreshOne pkOf s.heap (ents.getD i 0) := by
  have hne : ents ≠ [] := by
    cases ents with
    | nil => simp at hi
    | cons a l => simp
  rw [refresh_nonempty pkOf s ents hne]
  have hi' : i < (ents.map (refreshOne pkOf s.heap)).length := by
    simpa using hi
  rw [List.getD_eq_getElem _ _ hi', List.getElem_map, ← List.getD_eq_getElem ents 0 hi]

lemma refresh_issued_truthy (pkOf : String → String) (s : ScopeState)
    (ents : List Nat) (hne : ents ≠ []) :
    ∀ q ∈ (Scope.refresh pkOf s ents).2.queries.drop s.queries.length,
      q.pkVal.truthy = true := by
  intro q hq
  rw [refresh_nonempty pkOf s ents hne] at hq
  rw [show ({ s with queries := s.queries
      ++ (ents.map (refreshOne pkOf s.heap)).filterMap Except.toOption }
        : ScopeState).queries
      = s.queries ++ (ents.map (refreshOne pkOf s.heap)).filterMap Except.toOption
    from rfl, List.drop_left] at hq
  obtain ⟨r, hr, hrq⟩ := List.mem_filterMap.mp hq
  obtain ⟨a, _, rfl⟩ := List.mem_map.mp hr
  cases hro : refreshOne pkOf s.heap a with
  | error e =>
    rw [hro] at hrq
    exact absurd hrq (by simp [Except.toOption])
  | ok q' =>
    rw [hro] at hrq
    obtain rfl : q' = q := by simpa [Except.toOption] using hrq
    exact refreshOne_ok_truthy pkOf s.heap a q' hro

lemma refresh_overall_rejects (pkOf : String → String) (s : ScopeState)
    (ents : List Nat) (i : Nat) (hi : i < ents.length)
    (hfalsy : ((s.heap.getD (ents.getD i 0) default).get
        (pkOf (s.heap.getD (ents.getD i 0) default).etype)).truthy = false) :
    ∃ msg, (Scope.refresh pkOf s ents).1.overall = .error msg := by
  have hne : ents ≠ [] := by
    cases ents with
    | nil => simp at hi
    | cons a l => simp
  rw [refresh_nonempty pkOf s ents hne]
  refine promiseAll_error_of_mem (m := "Cannot refresh entity without a PK value.") ?_
  have herr : refreshOne pkOf s.heap (ents.getD i 0)
      = .error "Cannot refresh entity without a PK value." :=
    refreshOne_error_of_falsy pkOf s.heap (ents.getD i 0) hfalsy
  exact herr ▸ List.mem_map.mpr ⟨ents.getD i 0, getD_mem_of_lt ents i 0 hi, rfl⟩

/-! ## C3 -/

/-- C3: an entity whose primary-key field is unset (reads as `undefined`)
makes its own refresh fail with the PK error while no query with a falsy
primary key is ever issued; the lookups of the batch's entities that do have a
(truthy) primary key are still issued; and the overall `Promise.all` result of
`refresh` rejects. -/
theorem refresh_missing_pk (pkOf : String → String) (s : ScopeState)
    (ents : List Nat) (i : Nat) (hi : i < ents.length)
    (hnp : (s.heap.getD (ents.getD i 0) default).get
        (pkOf (s.heap.getD (ents.getD i 0) default).etype) = .vUndefined) :
    (Scope.refresh pkOf s ents).1.perEntity.getD i (.ok default)
      = .error "Cannot refresh entity without a PK value."
    ∧ (∀ j, j < ents.length →
        ((s.heap.getD (ents.getD j 0) default).get
          (pkOf (s.heap.getD (ents.getD j 0) default).etype)).truthy = true →
        ∃ q, refreshOne pkOf s.heap (ents.getD j 0) = .ok q
          ∧ q ∈ (Scope.refresh pkOf s ents).2.queries)
    ∧ (∀ q ∈ (Scope.refresh pkOf s ents).2.queries.drop s.queries.length,
        q.pkVal.truthy = true)
    ∧ (∃ msg, (Scope.refresh pkOf s ents).1.overall = .error msg) := by
  have hne : ents ≠ [] := by
    cases ents with
    | nil => simp at hi
    | cons a l => simp
  have hfalsy : ((s.heap.getD (ents.getD i 0) default).get
      (pkOf (s.heap.getD (ents.getD i 0) default).etype)).truthy = false := by
    rw [hnp]
    rfl
  refine ⟨?_, ?_, ?_, ?_⟩
  · rw [refresh_perEntity_getD pkOf s ents i hi]
    exact refreshOne_error_of_falsy pkOf s.heap (ents.getD i 0) hfalsy
  · intro j hj htru
    have hok := refreshOne_ok_of_truthy pkOf s.heap (ents.getD j 0) htru
    refine ⟨⟨(s.heap.getD (ents.getD j 0) default).etype,
        pkOf (s.heap.getD (ents.getD j 0) default).etype,
        (s.heap.getD (ents.getD j 0) default).get
          (pkOf (s.heap.getD (ents.getD j 0) default).etype)⟩, hok, ?_⟩
    rw [refresh_nonempty pkOf s ents hne]
    refine List.mem_append_right _ (List.mem_filterMap.mpr
      ⟨refreshOne pkOf s.heap (ents.getD j 0), ?_, ?_⟩)
    · exact List.mem_map.mpr ⟨ents.getD j 0, getD_mem_of_lt ents j 0 hj, rfl⟩
    · rw [hok]
      rfl
  · exact refresh_issued_truthy pkOf s ents hne
  · exact refresh_overall_rejects pkOf s ents i hi hfalsy

theorem refresh_missing_pk_witness :
    (Scope.refresh (fun _ => "id")
        (ScopeState.mk [⟨"user", []⟩, ⟨"user", [("id", .vNum 2)]⟩] [] ⟨[]⟩ ⟨[]⟩ [])
        [0, 1]).1.perEntity.getD 0 (.ok default)
      = .error "Cannot refresh entity without a PK value."
    ∧ (∀ j, j < [0, 1].length →
        (((ScopeState.mk [⟨"user", []⟩, ⟨"user", [("id", .vNum 2)]⟩] [] ⟨[]⟩ ⟨[]⟩
            []).heap.getD ([0, 1].getD j 0) default).get
          ((fun _ => "id")
            (((ScopeState.mk [⟨"user", []⟩, ⟨"user", [("id", .vNum 2)]⟩] [] ⟨[]⟩
              ⟨[]⟩ []).heap.getD ([0, 1].getD j 0) default).etype))).truthy = true →
        ∃ q, refreshOne (fun _ => "id")
            (ScopeState.mk [⟨"user", []⟩, ⟨"user", [("id", .vNum 2)]⟩] [] ⟨[]⟩ ⟨[]⟩
              []).heap ([0, 1].getD j 0) = .ok q
          ∧ q ∈ (Scope.refresh (fun _ => "id")
              (ScopeState.mk [⟨"user", []⟩, ⟨"user", [("id", .vNum 2)]⟩] [] ⟨[]⟩
                ⟨[]⟩ []) [0, 1]).2.queries)
    ∧ (∀ q ∈ (Scope.refresh (fun _ => "id")
          (ScopeState.mk [⟨"user", []⟩, ⟨"user", [("id", .vNum 2)]⟩] [] ⟨[]⟩ ⟨[]⟩
            []) [0, 1]).2.queries.drop
          (ScopeState.mk [⟨"user", []⟩, ⟨"user", [("id", .vNum 2)]⟩] [] ⟨[]⟩ ⟨[]⟩
            []).queries.length,
        q.pkVal.truthy = true)
    ∧ (∃ msg, (Scope.refresh (fun _ => "id")
        (ScopeState.mk [⟨"user", []⟩, ⟨"user", [("id", .vNum 2)]⟩] [] ⟨[]⟩ ⟨[]⟩ [])
        [0, 1]).1.overall = .error msg) :=
  refresh_missing_pk (fun _ => "id")
    (ScopeState.mk [⟨"user", []⟩, ⟨"user", [("id", .vNum 2)]⟩] [] ⟨[]⟩ ⟨[]⟩ [])
    [0, 1] 0 (by simp) rfl

/-! ## C10 -/

/-- C10: `refresh` treats every falsy primary-key value — `0`, `""`, `false`,
`null`, `undefined` — as a missing primary key: the entity's refresh is
rejected with `Cannot refresh entity without a PK value.`, no issued query
carries that value (so none is issued for the entity, even though a key such
as `0` may be legitimate), and the overall promise rejects. -/
theorem refresh_falsy_pk_rejected (pkOf : String → String) (s : ScopeState)
    (ents : List Nat) (i : Nat) (v : JsVal) (hi : i < ents.length)
    (hv : v ∈ ([.vNum 0, .vStr "", .vBool false, .vNull, .vUndefined] : List JsVal))
    (hpk : (s.heap.getD (ents.getD i 0) default).get
        (pkOf (s.heap.getD (ents.getD i 0) default).etype) = v) :
    (Scope.refresh pkOf s ents).1.perEntity.getD i (.ok default)
      = .error "Cannot refresh entity without a PK value."
    ∧ (∀ q ∈ (Scope.refresh pkOf s ents).2.queries.drop s.queries.length,
        q.pkVal ≠ v)
    ∧ (∃ msg, (Scope.refresh pkOf s ents).1.overall = .error msg) := by
  have hne : ents ≠ [] := by
    cases ents with
    | nil => simp at hi
    | cons a l => simp
  have hvf : v.truthy = false := by
    simp only [List.mem_cons, List.not_mem_nil, or_false] at hv
    rcases hv with rfl | rfl | rfl | rfl | rfl <;> rfl
  have hfalsy : ((s.heap.getD (ents.getD i 0) default).get
      (pkOf (s.heap.getD (ents.getD i 0) default).etype)).truthy = false := by
    rw [hpk]
    exact hvf
  refine ⟨?_, ?_, ?_⟩
  · rw [refresh_perEntity_getD pkOf s ents i hi]
    exact refreshOne_error_of_falsy pkOf s.heap (ents.getD i 0) hfalsy
  · intro q hq heq
    have := refresh_issued_truthy pkOf s ents hne q hq
    rw [heq, hvf] at this
    exact absurd this (by simp)
  · exact refresh_overall_rejects pkOf s ents i hi hfalsy

theorem refresh_falsy_pk_rejected_witness :
    (Scope.refresh (fun _ => "id")
        (ScopeState.mk [⟨"user", [("id", .vNum 0)]⟩] [] ⟨[]⟩ ⟨[]⟩ [])
        [0]).1.perEntity.getD 0 (.ok default)
      = .error "Cannot refresh entity without a PK value."
    ∧ (∀ q ∈ (Scope.refresh (fun _ => "id")
          (ScopeState.mk [⟨"user", [("id", .vNum 0)]⟩] [] ⟨[]⟩ ⟨[]⟩ [])
          [0]).2.queries.drop
          (ScopeState.mk [⟨"user", [("id", .vNum 0)]⟩] [] ⟨[]⟩ ⟨[]⟩
            []).queries.length,
        q.pkVal ≠ .vNum 0)
    ∧ (∃ msg, (Scope.refresh (fun _ => "id")
        (ScopeState.mk [⟨"user", [("id", .vNum 0)]⟩] [] ⟨[]⟩ ⟨[]⟩ [])
        [0]).1.overall = .error msg) :=
  refresh_falsy_pk_rejected (fun _ => "id")
    (ScopeState.mk [⟨"user", [("id", .vNum 0)]⟩] [] ⟨[]⟩ ⟨[]⟩ [])
    [0] 0 (.vNum 0) (by simp) (by simp) rfl

/-! ## Supporting lemmas about round-robin connection selection -/

lemma getConnection_step (st : Store) (role : String)
    (hrole : role = Store.ROLE_MASTER ∨ role = Store.ROLE_SLAVE)
    (hne : st.roleList role ≠ []) :
    ∃ st1, st.getConnection role
        = .ok ((st.roleList role).getD
            (st.rolePtr role % (st.roleList role).length) 0, st1)
      ∧ st1.roleList role = st.roleList role
      ∧ st1.rolePtr role = (st.rolePtr role + 1) % (st.roleList role).length := by
  rcases hrole with rfl | rfl
  · refine ⟨{ st with ptrMaster := (st.ptrMaster + 1) % st.master.length }, ?_, ?_, ?_⟩
    · have hlen : ¬ st.master.length = 0 := by
        rw [List.length_eq_zero]
        simpa [Store.roleList] using hne
      simp [Store.getConnection, hlen, Store.roleList, Store.rolePtr]
    · simp [Store.roleList]
    · simp [Store.rolePtr, Store.roleList]
  · refine ⟨{ st with ptrSlave := (st.ptrSlave + 1) % st.slave.length }, ?_, ?_, ?_⟩
    · have hlen : ¬ st.slave.length = 0 := by
        rw [List.length_eq_zero]
        simpa [Store.roleList, Store.ROLE_SLAVE, Store.ROLE_MASTER] using hne
      simp [Store.getConnection, hlen, Store.roleList, Store.rolePtr,
        Store.ROLE_SLAVE, Store.ROLE_MASTER]
    · simp [Store.roleList, Store.ROLE_SLAVE, Store.ROLE_MASTER]
    · simp [Store.rolePtr, Store.roleList, Store.ROLE_SLAVE, Store.ROLE_MASTER]

lemma runConns_results (role : String)
    (hrole : role = Store.ROLE_MASTER ∨ role = Store.ROLE_SLAVE) :
    ∀ (n : Nat) (st : Store), st.roleList role ≠ [] →
      (Store.runConns role st n).1
        = (List.range n).map (fun i => Except.ok
            ((st.roleList role).getD
              ((st.rolePtr role + i) % (st.roleList role).length) 0))
      ∧ (Store.runConns role st n).2.roleList role = st.roleList role := by
  intro n
  induction n with
  | zero => exact fun st _ => ⟨rfl, rfl⟩
  | succ n ih =>
    intro st hne
    obtain ⟨st1, hstep, hlist, hptr⟩ := getConnection_step st role hrole hne
    have hrun : Store.runConns role st (n + 1)
        = (.ok ((st.roleList role).getD
              (st.rolePtr role % (st.roleList role).length) 0)
            :: (Store.runConns role st1 n).1, (Store.runConns role st1 n).2) := by
      simp only [Store.runConns, hstep]
    have hne1 : st1.roleList role ≠ [] := by
      rw [hlist]
      exact hne
    obtain ⟨hres, hfin⟩ := ih st1 hne1
    refine ⟨?_, ?_⟩
    · rw [hrun]
      dsimp only
      rw [hres, hlist, hptr]
      rw [List.range_succ_eq_map, List.map_cons, List.map_map]
      refine congrArg₂ _ (by rw [Nat.add_zero]) ?_
      refine List.map_congr_left ?_
      intro m _
      simp only [Function.comp_apply]
      rw [Nat.mod_add_mod]
      have hm2 : st.rolePtr role + 1 + m = st.rolePtr role + Nat.succ m := by omega
      rw [hm2]
    · rw [hrun]
      dsimp only
      rw [hfin, hlist]

/-! ## C5 -/

/-- C5: over a role list of length `L`, successive `getConnection(role)` calls
select round-robin — the `i`-th call returns the entry at index
`(counter + i) mod L`, so over any `L` consecutive calls each of the `L`
entries is visited exactly once, the call after a full cycle returns what the
cycle's first call returned (the per-role counter increments modulo `L`,
wrapping to zero), and every returned connection belongs to the requested
role's list. -/
theorem store_getConnection_round_robin (st : Store) (role : String)
    (n i j k : Nat)
    (hrole : role = Store.ROLE_MASTER ∨ role = Store.ROLE_SLAVE)
    (hne : st.roleList role ≠ [])
    (hi : i < n)
    (hj : j < (st.roleList role).length)
    (hL : (st.roleList role).length < n) :
    (Store.runConns role st n).1.getD i (.error "")
      = .ok ((st.roleList role).getD
          ((st.rolePtr role + i) % (st.roleList role).length) 0)
    ∧ (∃! m, m < (st.roleList role).length
        ∧ (st.rolePtr role + (k + m)) % (st.roleList role).length = j)
    ∧ (Store.runConns role st n).1.getD (st.roleList role).length (.error "")
      = (Store.runConns role st n).1.getD 0 (.error "")
    ∧ (∃ c, (Store.runConns role st n).1.getD i (.error "") = .ok c
        ∧ c ∈ st.roleList role) := by
  have hL0 : 0 < (st.roleList role).length := Nat.lt_of_le_of_lt (Nat.zero_le j) hj
  obtain ⟨hres, _⟩ := runConns_results role hrole n st hne
  have hgetD : ∀ m, m < n → (Store.runConns role st n).1.getD m (.error "")
      = .ok ((st.roleList role).getD
          ((st.rolePtr role + m) % (st.roleList role).length) 0) := by
    intro m hm
    rw [hres]
    have hm' : m < ((List.range n).map (fun i => Except.ok (ε := String)
        ((st.roleList role).getD
          ((st.rolePtr role + i) % (st.roleList role).length) 0))).length := by
      simpa using hm
    rw [List.getD_eq_getElem _ _ hm', List.getElem_map, List.getElem_range]
  refine ⟨hgetD i hi, ?_, ?_, ?_⟩
  · -- each entry index is selected exactly once per cycle of L calls
    refine ⟨(j + (st.roleList role).length
        - (st.rolePtr role + k) % (st.roleList role).length)
          % (st.roleList role).length, ⟨Nat.mod_lt _ hL0, ?_⟩, ?_⟩
    · have hq : (st.rolePtr role + k) % (st.roleList role).length
          < (st.roleList role).length := Nat.mod_lt _ hL0
      rw [← Nat.add_assoc, ← Nat.mod_add_mod, Nat.add_mod_mod]
      have harith : (st.rolePtr role + k) % (st.roleList role).length
          + (j + (st.roleList role).length
            - (st.rolePtr role + k) % (st.roleList role).length)
          = j + (st.roleList role).length := by
        omega
      rw [harith, Nat.add_mod_right]
      exact Nat.mod_eq_of_lt hj
    · intro m' hm'
      obtain ⟨hm'lt, hm'eq⟩ := hm'
      have h0 : (st.rolePtr role + (k + ((j + (st.roleList role).length
          - (st.rolePtr role + k) % (st.roleList role).length)
            % (st.roleList role).length))) % (st.roleList role).length = j := by
        have hq : (st.rolePtr role + k) % (st.roleList role).length
            < (st.roleList role).length := Nat.mod_lt _ hL0
        rw [← Nat.add_assoc, ← Nat.mod_add_mod, Nat.add_mod_mod]
        have harith : (st.rolePtr role + k) % (st.roleList role).length
            + (j + (st.roleList role).length
              - (st.rolePtr role + k) % (st.roleList role).length)
            = j + (st.roleList role).length := by
          omega
        rw [harith, Nat.add_mod_right]
        exact Nat.mod_eq_of_lt hj
      have hmodeq : st.rolePtr role + (k + m')
          ≡ st.rolePtr role + (k + ((j + (st.roleList role).length
            - (st.rolePtr role + k) % (st.roleList role).length)
              % (st.roleList role).length)) [MOD (st.roleList role).length] := by
        unfold Nat.ModEq
        rw [hm'eq, h0]
      have := Nat.ModEq.add_left_cancel' (st.rolePtr role) hmodeq
      have := Nat.ModEq.add_left_cancel' k this
      unfold Nat.ModEq at this
      rw [Nat.mod_eq_of_lt hm'lt, Nat.mod_eq_of_lt (Nat.mod_lt _ hL0)] at this
      exact this
  · rw [hgetD (st.roleList role).length hL, hgetD 0 (Nat.lt_of_le_of_lt (Nat.zero_le _) hL)]
    rw [Nat.add_zero, Nat.add_mod_right]
  · refine ⟨(st.roleList role).getD
        ((st.rolePtr role + i) % (st.roleList role).length) 0, hgetD i hi, ?_⟩
    have hlt : (st.rolePtr role + i) % (st.roleList role).length
        < (st.roleList role).length := Nat.mod_lt _ hL0
    rw [List.getD_eq_getElem _ _ hlt]
    exact List.getElem_mem hlt

theorem store_getConnection_round_robin_witness :
    (Store.runConns Store.ROLE_MASTER (Store.mk "s" [10, 20, 30] [] 0 0) 4).1.getD
        1 (.error "")
      = .ok (((Store.mk "s" [10, 20, 30] [] 0 0).roleList Store.ROLE_MASTER).getD
          (((Store.mk "s" [10, 20, 30] [] 0 0).rolePtr Store.ROLE_MASTER + 1)
            % ((Store.mk "s" [10, 20, 30] [] 0 0).roleList
                Store.ROLE_MASTER).length) 0)
    ∧ (∃! m, m < ((Store.mk "s" [10, 20, 30] [] 0 0).roleList
          Store.ROLE_MASTER).length
        ∧ ((Store.mk "s" [10, 20, 30] [] 0 0).rolePtr Store.ROLE_MASTER + (5 + m))
            % ((Store.mk "s" [10, 20, 30] [] 0 0).roleList
                Store.ROLE_MASTER).length = 2)
    ∧ (Store.runConns Store.ROLE_MASTER (Store.mk "s" [10, 20, 30] [] 0 0) 4).1.getD
        ((Store.mk "s" [10, 20, 30] [] 0 0).roleList Store.ROLE_MASTER).length
        (.error "")
      = (Store.runConns Store.ROLE_MASTER (Store.mk "s" [10, 20, 30] [] 0 0)
          4).1.getD 0 (.error "")
    ∧ (∃ c, (Store.runConns Store.ROLE_MASTER (Store.mk "s" [10, 20, 30] [] 0 0)
          4).1.getD 1 (.error "") = .ok c
        ∧ c ∈ (Store.mk "s" [10, 20, 30] [] 0 0).roleList Store.ROLE_MASTER) :=
  store_getConnection_round_robin (Store.mk "s" [10, 20, 30] [] 0 0)
    Store.ROLE_MASTER 4 1 2 5 (Or.inl rfl) (by simp [Store.roleList]) (by decide)
    (by simp [Store.roleList]) (by simp [Store.roleList])
